import Mathlib

/-!
Verification development for the speculation-assist repository.

The definitions below are a shallow embedding of the repository's core logic:

* the trading-idea normalizer of the ideas API route
  (src/unnamed/part_010, first file segment: the /api/ideas "all ideas"
  handler — its parseCombinedIdeas function and the classification /
  aggregation / sort pipeline in its GET handler);
* the fixed-window rate limiter checkRateLimit of src/src/app/api/chat/route.ts;
* the retry wrapper withRetry of src/src/lib/api-helpers.ts.

JavaScript strings are modelled as List Char (wrapped in String at the data
boundary).  The embedding models the LF character as the only line
terminator and the ASCII whitespace characters as the whitespace class;
the inputs stored by this system are ASCII text with LF newlines, where the
two models agree with ECMAScript.  JS millisecond clock values are Nat.
Effects are made explicit: the rate limiter threads its store, and withRetry
returns a trace recording the result, the number of invocations, the awaited
delays and the console log lines.
-/

/-- Whitespace test matching the JS regex class backslash-s on the ASCII
range (space, tab, LF, CR, vertical tab, form feed). -/
def isJsWhitespace (c : Char) : Bool :=
  (c == ' ') || (c == '\t') || (c == '\n') || (c == '\r') ||
  (c == Char.ofNat 11) || (c == Char.ofNat 12)

/-- JS String.prototype.trim: drop leading and trailing whitespace. -/
def jsTrim (l : List Char) : List Char :=
  ((l.dropWhile isJsWhitespace).reverse.dropWhile isJsWhitespace).reverse

/-- JS s.split("---"): split on every non-overlapping occurrence of the
three-dash delimiter, scanning left to right. -/
def splitOnTripleDash : List Char → List (List Char)
  | '-' :: '-' :: '-' :: rest => [] :: splitOnTripleDash rest
  | c :: rest =>
    match splitOnTripleDash rest with
    | [] => [[c]]
    | g :: gs => (c :: g) :: gs
  | [] => [[]]

/-- JS s.split(newline). -/
def splitOnNl : List Char → List (List Char)
  | '\n' :: rest => [] :: splitOnNl rest
  | c :: rest =>
    match splitOnNl rest with
    | [] => [[c]]
    | g :: gs => (c :: g) :: gs
  | [] => [[]]

/-- JS s.includes(needle): substring containment. -/
def containsSeq (needle : List Char) : List Char → Bool
  | [] => needle.isEmpty
  | c :: rest => needle.isPrefixOf (c :: rest) || containsSeq needle rest

/-- JS s.replace(whitespace-run regex with the g flag, single space):
collapse every maximal run of whitespace characters into one space. -/
def collapseWs : List Char → List Char
  | [] => []
  | [c] => if isJsWhitespace c then [' '] else [c]
  | c :: d :: rest =>
    if isJsWhitespace c && isJsWhitespace d then collapseWs (d :: rest)
    else if isJsWhitespace c then ' ' :: collapseWs (d :: rest)
    else c :: collapseWs (d :: rest)

/-- JS s.replace(anchored leading comma plus following whitespace, empty):
strip one leading comma together with the whitespace run after it. -/
def stripLeadingComma : List Char → List Char
  | ',' :: rest => rest.dropWhile isJsWhitespace
  | l => l

/-- The ticker-fragment cleanup of parseCombinedIdeas
(src/unnamed/part_010 lines 46-48): trim, strip a single leading comma,
collapse whitespace runs to single spaces, trim again. -/
def cleanTickerFragment (frag : List Char) : List Char :=
  jsTrim (collapseWs (stripLeadingComma (jsTrim frag)))

/-- One backtracking step of the theme regex tail after the dash: with the
lazy dot-plus-dollar, a capture starting at offset k of the remainder
succeeds when a non-LF character stands there, and then extends to the end
of that line. -/
def capTry (rest : List Char) (k : Nat) : Option (List Char) :=
  match rest.drop k with
  | [] => none
  | c :: cs =>
    if c = '\n' then none
    else some ((c :: cs).takeWhile (fun x => decide (x ≠ '\n')))

/-- Greedy-then-backtracking search for the capture start: the whitespace
star after the dash first consumes maximally (offset k), then gives back one
character at a time. -/
def capSearch (rest : List Char) : Nat → Option (List Char)
  | 0 => capTry rest 0
  | k + 1 =>
    match capTry rest (k + 1) with
    | some c => some c
    | none => capSearch rest k

/-- The tail of the theme regex after the literal dash: whitespace star,
then a lazy non-empty capture up to the end of the line. -/
def captureAfterDash (rest : List Char) : Option (List Char) :=
  capSearch rest (rest.takeWhile isJsWhitespace).length

/-- Attempt the theme regex at one multiline anchor: the literal IDEA,
whitespace plus, digits plus, whitespace star, a dash, then the captured
rest of the line.  Adjacent atoms draw from disjoint character classes, so
maximal munch agrees with the backtracking regex except after the dash,
where captureAfterDash performs the backtracking. -/
def matchThemeAt (l : List Char) : Option (List Char) :=
  match l with
  | 'I' :: 'D' :: 'E' :: 'A' :: r1 =>
    let ws1 := r1.takeWhile isJsWhitespace
    if ws1.isEmpty then none
    else
      let r2 := r1.drop ws1.length
      let ds := r2.takeWhile Char.isDigit
      if ds.isEmpty then none
      else
        match (r2.drop ds.length).dropWhile isJsWhitespace with
        | '-' :: rest => captureAfterDash rest
        | _ => none
  | _ => none

/-- Scan the later multiline anchors (positions following an LF), leftmost
first. -/
def findThemeGo : List Char → Option (List Char)
  | [] => none
  | '\n' :: rest =>
    match matchThemeAt rest with
    | some c => some c
    | none => findThemeGo rest
  | _ :: rest => findThemeGo rest

/-- JS s.match of the multiline theme regex, returning the first capture:
try the start of the string, then every position after an LF, in order. -/
def findTheme (l : List Char) : Option (List Char) :=
  match matchThemeAt l with
  | some c => some c
  | none => findThemeGo l

/-- The content-line filter of parseCombinedIdeas: keep a line unless it is
blank or looks like a bare ticker list (only uppercase letters, whitespace
and commas, and at most 50 characters). -/
def keepAnalysisLine (line : List Char) : Bool :=
  let t := jsTrim line
  if t.isEmpty then false
  else
    (!(t.all (fun c =>
        (decide ('A' ≤ c) && decide (c ≤ 'Z')) || isJsWhitespace c || (c == ',')))) ||
    decide (t.length > 50)

/-- A raw row of the generated_ideas table as selected by the route:
id, created_at, theme, analysis, tickers. -/
structure IdeaRow where
  id : Int
  created_at : String
  theme : String
  analysis : String
  tickers : String
deriving DecidableEq, Repr

/-- The normalized, user-facing trading idea (TradingIdea in the source). -/
structure TradingIdea where
  id : Int
  created_at : String
  theme : String
  analysis : String
  tickers : String
deriving DecidableEq, Repr

/-- The body of the forEach loop of parseCombinedIdeas for one indexed
analysis fragment: trim the fragment, extract the theme line, build the
narrative from the remaining non-ticker lines, clean the aligned ticker
fragment, and emit the idea only when theme and narrative are non-empty. -/
def parseIdeaFragment (rowId : Int) (createdAt : String)
    (tickerGroups : List (List Char)) (p : Nat × List Char) : Option TradingIdea :=
  let index : Nat := p.1
  let trimmedPart := jsTrim p.2
  if trimmedPart.isEmpty then none
  else
    match findTheme trimmedPart with
    | none => none
    | some cap =>
      let theme := jsTrim cap
      let contentLines := (splitOnNl trimmedPart).drop 1
      let analysisLines := contentLines.filter keepAnalysisLine
      let analysisContent := jsTrim (List.intercalate ['\n'] analysisLines)
      let tickerGroup := cleanTickerFragment ((tickerGroups[index]?).getD [])
      if theme.isEmpty || analysisContent.isEmpty then none
      else
        some { id := rowId + (index : Int)
               created_at := createdAt
               theme := ⟨theme⟩
               analysis := ⟨analysisContent⟩
               tickers := ⟨tickerGroup⟩ }

/-- parseCombinedIdeas (src/unnamed/part_010 lines 6-63): split the
analysis and tickers fields on the triple-dash delimiter, and for each
non-blank analysis fragment with a matching theme line emit one idea whose
id is the row id offset by the fragment index, provided theme and body are
non-empty after cleanup. -/
def parseCombinedIdeas (row : IdeaRow) : List TradingIdea :=
  let analysisParts := splitOnTripleDash row.analysis.data
  let tickerGroups := splitOnTripleDash row.tickers.data
  analysisParts.enum.filterMap (parseIdeaFragment row.id row.created_at tickerGroups)

/-- The bulk marker substring used by the classification test. -/
def bulkMarker : List Char := ['I', 'D', 'E', 'A', ' ', '1']

/-- The block delimiter substring used by the classification test. -/
def bulkDelimiter : List Char := ['-', '-', '-']

/-- The per-row combined-format test of the GET handler: the analysis field
is non-empty (JS truthiness) and contains both the bulk marker and the
delimiter. -/
def rowMatches (r : IdeaRow) : Bool :=
  (!r.analysis.data.isEmpty) &&
  containsSeq bulkMarker r.analysis.data &&
  containsSeq bulkDelimiter r.analysis.data

/-- Batch classification: some row passes the combined-format test. -/
def hasCombinedFormat (rows : List IdeaRow) : Bool :=
  rows.any rowMatches

/-- The bulk branch of the GET handler: for each row passing the
combined-format test, append the ideas parsed from it (the forEach / push
loop, src/unnamed/part_010 lines 160-167). -/
def bulkConcat (rows : List IdeaRow) : List TradingIdea :=
  rows.foldl (fun acc r => if rowMatches r then acc ++ parseCombinedIdeas r else acc) []

/-- The single-idea branch: a row is used as-is, cast to the output shape. -/
def castRow (r : IdeaRow) : TradingIdea :=
  { id := r.id, created_at := r.created_at, theme := r.theme
    analysis := r.analysis, tickers := r.tickers }

/-- Strict lexicographic order on character lists, by code point. -/
def charListLt : List Char → List Char → Bool
  | [], [] => false
  | [], _ :: _ => true
  | _ :: _, [] => false
  | c :: cs, d :: ds =>
    if c.toNat < d.toNat then true
    else if d.toNat < c.toNat then false
    else charListLt cs ds

/-- The JS sort comparator (time of b minus time of a): a precedes b when
the time of b is not greater.  Date.getTime on the fixed-width ISO-8601 UTC
timestamps stored by this table is strictly monotone in the lexicographic
order of the strings, so string order stands in for the time key. -/
def ideaDescLe (a b : TradingIdea) : Bool :=
  !charListLt a.created_at.data b.created_at.data

/-- The sort-order relation induced by the comparator, as a Prop. -/
def IdeaDescRel (a b : TradingIdea) : Prop :=
  ideaDescLe a b = true

instance : DecidableRel IdeaDescRel := fun a b =>
  inferInstanceAs (Decidable (ideaDescLe a b = true))

/-- processedIdeas.sort of the GET handler: descending by created_at.  The
comparator relation is total, so any stable sort computes the same list as
the JS runtime's stable sort; a stable insertion sort is used here. -/
def sortIdeasDesc (l : List TradingIdea) : List TradingIdea :=
  l.insertionSort IdeaDescRel

/-- The normalization pipeline of the GET handler once rows are in hand
(src/unnamed/part_010 lines 148-175): classify the batch, parse every
matching row in the bulk case or cast rows in the single case, then sort
descending by created_at. -/
def normalizeRows (rows : List IdeaRow) : List TradingIdea :=
  sortIdeasDesc (if hasCombinedFormat rows then bulkConcat rows else rows.map castRow)

/-- The hardcoded mock fallback ideas of the handler
(src/unnamed/part_010 lines 100-143).  Their created_at values are computed
from the request-time clock, so the six timestamp strings are parameters. -/
def mockIdeas (t1 t2 t3 t4 t5 t6 : String) : List TradingIdea :=
  [ { id := 1, created_at := t1, theme := "Tech Sector Momentum"
      analysis := "Strong technical breakout in major tech stocks with high volume. AI and semiconductor sectors showing particular strength with institutional buying pressure."
      tickers := "AAPL, NVDA, MSFT" },
    { id := 2, created_at := t2, theme := "EV Market Volatility"
      analysis := "Electric vehicle stocks showing mixed signals. Recent earnings reports and regulatory changes creating uncertainty, but long-term outlook remains positive."
      tickers := "TSLA, RIVN, LCID" },
    { id := 3, created_at := t3, theme := "Financial Sector Rotation"
      analysis := "Banking and financial services benefiting from interest rate environment. Strong earnings and improved lending conditions driving sector performance."
      tickers := "JPM, BAC, GS, WFC" },
    { id := 4, created_at := t4, theme := "Healthcare Innovation"
      analysis := "Biotech and pharmaceutical companies with breakthrough treatments gaining momentum. FDA approvals and clinical trial results driving significant price movements."
      tickers := "JNJ, PFE, MRNA, GILD" },
    { id := 5, created_at := t5, theme := "Energy Transition"
      analysis := "Renewable energy and traditional energy companies showing divergent patterns. Solar and wind stocks outperforming while oil companies face headwinds."
      tickers := "ENPH, FSLR, XOM, CVX" },
    { id := 6, created_at := t6, theme := "Consumer Discretionary Weakness"
      analysis := "Retail and consumer discretionary stocks under pressure from inflation concerns. However, luxury brands and premium retailers showing resilience."
      tickers := "AMZN, HD, TGT, LVMUY" } ]

/-- The data produced by the GET handler of the ideas route
(src/unnamed/part_010 lines 65-188) once the storage fetch has resolved:
fetched is none when the fetch failed after retries (ideas stayed null);
when the fetched row list is empty the mock fallback is returned, otherwise
the rows go through the normalization pipeline. -/
def ideasGET (fetched : Option (List IdeaRow)) (t1 t2 t3 t4 t5 t6 : String) :
    List TradingIdea :=
  match fetched with
  | none => mockIdeas t1 t2 t3 t4 t5 t6
  | some rows =>
    if rows.isEmpty then mockIdeas t1 t2 t3 t4 t5 t6
    else normalizeRows rows

/-- One entry of the in-memory rate-limit store of
src/src/app/api/chat/route.ts: the request count of the current window and
the window's reset time in clock milliseconds. -/
structure RateLimitEntry where
  count : Nat
  resetTime : Nat
deriving DecidableEq, Repr

/-- The value returned by checkRateLimit: whether the call is allowed, and
on rejection the reset time of the window. -/
structure RateLimitResult where
  allowed : Bool
  resetTime : Option Nat
deriving DecidableEq, Repr

/-- The rateLimitStore map, modelled as an association list keyed by user
id (Map.get / Map.set semantics: lookup by key, set replaces in place or
appends). -/
abbrev RateLimitStore := List (String × RateLimitEntry)

/-- Map.get on the store. -/
def rlGet : RateLimitStore → String → Option RateLimitEntry
  | [], _ => none
  | (k, e) :: rest, u => if k = u then some e else rlGet rest u

/-- Map.set on the store. -/
def rlSet : RateLimitStore → String → RateLimitEntry → RateLimitStore
  | [], u, e => [(u, e)]
  | (k, e0) :: rest, u, e =>
    if k = u then (k, e) :: rest else (k, e0) :: rlSet rest u e

/-- RATE_LIMIT.maxRequests (10 requests per window). -/
def rateLimitMaxRequests : Nat := 10

/-- RATE_LIMIT.windowMs (one minute). -/
def rateLimitWindowMs : Nat := 60 * 1000

/-- checkRateLimit (src/src/app/api/chat/route.ts lines 127-147), with the
mutable store and the clock made explicit: a missing or expired entry is
replaced by a fresh window with count 1 and the call is allowed; a full
window rejects the call and returns its reset time; otherwise the count is
incremented and the call is allowed. -/
def checkRateLimit (store : RateLimitStore) (userId : String) (now : Nat) :
    RateLimitResult × RateLimitStore :=
  match rlGet store userId with
  | none =>
    (⟨true, none⟩, rlSet store userId ⟨1, now + rateLimitWindowMs⟩)
  | some userLimit =>
    if now > userLimit.resetTime then
      (⟨true, none⟩, rlSet store userId ⟨1, now + rateLimitWindowMs⟩)
    else if userLimit.count ≥ rateLimitMaxRequests then
      (⟨false, some userLimit.resetTime⟩, store)
    else
      (⟨true, none⟩, rlSet store userId ⟨userLimit.count + 1, userLimit.resetTime⟩)

/-- Run a sequence of checkRateLimit calls for one user at the given clock
values, collecting the results and threading the store. -/
def runRateLimitCalls (userId : String) : List Nat → RateLimitStore →
    List RateLimitResult × RateLimitStore
  | [], s => ([], s)
  | t :: ts, s =>
    let p := checkRateLimit s userId t
    let q := runRateLimitCalls userId ts p.2
    (p.1 :: q.1, q.2)

/-- The console.log line printed at the start of an attempt. -/
def retryAttemptLog (opName : String) (attempt maxRetries : Nat) : String :=
  "[RETRY] " ++ opName ++ " - Attempt " ++ toString attempt ++ "/" ++ toString maxRetries

/-- The console.log line printed when a retried attempt succeeds. -/
def retrySuccessLog (opName : String) (attempt : Nat) : String :=
  "[RETRY] " ++ opName ++ " - Succeeded on attempt " ++ toString attempt

/-- The console.warn line printed when an attempt fails. -/
def retryWarnLog (opName : String) (attempt : Nat) (msg : String) : String :=
  "[RETRY] " ++ opName ++ " - Attempt " ++ toString attempt ++ " failed: " ++ msg

/-- The console.error line printed when every attempt has failed. -/
def retryAllFailedLog (opName : String) (maxRetries : Nat) : String :=
  "[RETRY] " ++ opName ++ " - All " ++ toString maxRetries ++ " attempts failed"

/-- The console.log line printed before the backoff wait. -/
def retryWaitingLog (opName : String) (delay : Nat) : String :=
  "[RETRY] " ++ opName ++ " - Waiting " ++ toString delay ++ "ms before retry..."

/-- The observable behaviour of one withRetry invocation: the value it
returns or the error it fails with, the number of times the wrapped
operation ran, the backoff delays awaited (in order), and the console
output. -/
structure RetryTrace (α : Type) where
  result : Except String α
  calls : Nat
  waits : List Nat
  logs : List String
deriving Repr

/-- The attempt loop of withRetry (src/src/lib/api-helpers.ts lines
93-128).  The operation is modelled as a function from the attempt number
(1-indexed) to that attempt's outcome.  The fuel n counts the attempts
still permitted, so n + attempt = maxRetries + 1; at n = 0 the loop is
over and the wrapper throws the last error (or the fallback message when no
attempt ever ran, which happens only for maxRetries = 0). -/
def withRetryGo (op : Nat → Except String α) (maxRetries delayMs : Nat)
    (opName : String) : Nat → Nat → Option String → RetryTrace α
  | 0, _, lastError =>
    { result := Except.error
        (lastError.getD (opName ++ " failed after " ++ toString maxRetries ++ " attempts"))
      calls := 0, waits := [], logs := [] }
  | n + 1, attempt, _ =>
    let head := [retryAttemptLog opName attempt maxRetries]
    match op attempt with
    | Except.ok v =>
      { result := Except.ok v, calls := 1, waits := []
        logs := head ++ (if attempt > 1 then [retrySuccessLog opName attempt] else []) }
    | Except.error e =>
      if n = 0 then
        { result := Except.error e, calls := 1, waits := []
          logs := head ++ [retryWarnLog opName attempt e, retryAllFailedLog opName maxRetries] }
      else
        let d := delayMs * 2 ^ (attempt - 1)
        let rest := withRetryGo op maxRetries delayMs opName n (attempt + 1) (some e)
        { result := rest.result, calls := 1 + rest.calls, waits := d :: rest.waits
          logs := head ++ [retryWarnLog opName attempt e, retryWaitingLog opName d] ++ rest.logs }

/-- withRetry (src/src/lib/api-helpers.ts lines 93-128): run up to
maxRetries attempts starting at attempt 1, waiting delayMs times two to
the power (attempt - 1) after each non-final failed attempt. -/
def withRetry (op : Nat → Except String α) (maxRetries delayMs : Nat)
    (opName : String) : RetryTrace α :=
  withRetryGo op maxRetries delayMs opName maxRetries 1 none

/-- The bulk row of the spec's sample scenario. -/
def sampleBulkRow : IdeaRow :=
  { id := 100, created_at := "2025-01-01T06:00:00Z", theme := ""
    analysis := "IDEA 1 - Tech Momentum\nStrong breakout.\n---\nIDEA 2 - EV Weakness\nMixed signals."
    tickers := "AAPL, NVDA\n---\n,TSLA, RIVN" }

/-- A bulk-classified row whose only fragment has a theme line but an empty
body, so parsing emits no idea from it. -/
def emptyBulkRow : IdeaRow :=
  { id := 1, created_at := "2025-01-01T00:00:00Z", theme := ""
    analysis := "IDEA 1 - Empty\n---", tickers := "" }

/-- A single-idea row with no bulk marker. -/
def plainRow1 : IdeaRow :=
  { id := 7, created_at := "2025-02-02T00:00:00Z", theme := "Gold"
    analysis := "Gold strength.", tickers := "GLD" }

/-- Another single-idea row with no bulk marker. -/
def plainRow2 : IdeaRow :=
  { id := 8, created_at := "2025-02-03T00:00:00Z", theme := "Oil"
    analysis := "Oil weakness.", tickers := "USO" }

/-! ## Helper lemmas -/

theorem collapseWs_nl_not_mem : ∀ l : List Char, '\n' ∉ collapseWs l
  | [] => by simp [collapseWs]
  | [c] => by
    simp only [collapseWs]
    split
    · simp
    · rename_i hws
      simp only [List.mem_singleton]
      intro h
      rw [← h] at hws
      simp [isJsWhitespace] at hws
  | c :: d :: rest => by
    simp only [collapseWs]
    split
    · exact collapseWs_nl_not_mem (d :: rest)
    · split
      · simp only [List.mem_cons]
        rintro (h | h)
        · simp at h
        · exact collapseWs_nl_not_mem (d :: rest) h
      · rename_i h1 h2
        simp only [List.mem_cons]
        rintro (h | h)
        · rw [← h] at h2
          simp [isJsWhitespace] at h2
        · exact collapseWs_nl_not_mem (d :: rest) h

theorem mem_of_mem_jsTrim {c : Char} {l : List Char} (h : c ∈ jsTrim l) : c ∈ l := by
  unfold jsTrim at h
  rw [List.mem_reverse] at h
  have h2 := (List.dropWhile_sublist isJsWhitespace).subset h
  rw [List.mem_reverse] at h2
  exact (List.dropWhile_sublist isJsWhitespace).subset h2

theorem parseIdeaFragment_fields_nonempty (rowId : Int) (createdAt : String)
    (tickerGroups : List (List Char)) (p : Nat × List Char) (idea : TradingIdea)
    (h : parseIdeaFragment rowId createdAt tickerGroups p = some idea) :
    idea.theme ≠ "" ∧ idea.analysis ≠ "" := by
  simp only [parseIdeaFragment] at h
  split at h
  · simp at h
  · split at h
    · simp at h
    · split at h
      · simp at h
      · rename_i hcond
        rw [Option.some.injEq] at h
        subst h
        rw [Bool.or_eq_true, not_or] at hcond
        obtain ⟨ht, ha⟩ := hcond
    
        refine ⟨fun he => ht ?_, fun he => ha ?_⟩
        · have := congrArg String.data he
          simpa [List.isEmpty_iff] using this
        · have := congrArg String.data he
          simpa [List.isEmpty_iff] using this

theorem withRetryGo_all_fail (α : Type) (errs : Nat → String)
    (maxRetries delayMs : Nat) (opName : String) :
    ∀ (n attempt : Nat) (le0 : Option String), 1 ≤ n →
      (withRetryGo (fun i => (Except.error (errs i) : Except String α))
          maxRetries delayMs opName n attempt le0).result =
        Except.error (errs (attempt + n - 1)) ∧
      retryAllFailedLog opName maxRetries ∈
        (withRetryGo (fun i => (Except.error (errs i) : Except String α))
          maxRetries delayMs opName n attempt le0).logs := by
  intro n
  induction n with
  | zero => intro attempt le0 h; omega
  | succ m ih =>
    intro attempt le0 _
    by_cases hm : m = 0
    · subst hm
      simp [withRetryGo]
    · have h1 : 1 ≤ m := Nat.one_le_iff_ne_zero.mpr hm
      have := ih (attempt + 1) (some (errs attempt)) h1
      have harith : attempt + 1 + m - 1 = attempt + (m + 1) - 1 := by omega
      constructor
      · simp only [withRetryGo, if_neg hm]
        rw [this.1, harith]
      · simp only [withRetryGo, if_neg hm]
        exact List.mem_append_right _ this.2

/-! ## Claim theorems -/

/-- Claim C1: for the single bulk row with id 100 and createdAt
2025-01-01T06:00:00Z whose analysis holds two delimiter-separated idea
blocks and whose tickers field holds two aligned groups, parseCombinedIdeas
emits exactly the two expected ideas with ids 100 and 101, cleaned tickers,
and the source row's createdAt. -/
theorem parseCombinedIdeas_sample_scenario :
    parseCombinedIdeas sampleBulkRow =
      [ { id := 100, created_at := "2025-01-01T06:00:00Z", theme := "Tech Momentum"
          analysis := "Strong breakout.", tickers := "AAPL, NVDA" },
        { id := 101, created_at := "2025-01-01T06:00:00Z", theme := "EV Weakness"
          analysis := "Mixed signals.", tickers := "TSLA, RIVN" } ] := by
  decide

/-- Claim C7: the ticker-fragment cleanup strips a single leading comma and
collapses internal whitespace and newlines to single spaces; in particular
the fragment with a leading space, comma and padded tickers normalizes to
the plain comma-separated list, and no cleaned fragment ever retains a
newline character. -/
theorem cleanTickerFragment_cleanup :
    String.mk (cleanTickerFragment (" ,AAPL, MSFT ").data) = "AAPL, MSFT" ∧
    ∀ s : List Char, (cleanTickerFragment s).contains '\n' = false := by
  constructor
  · decide
  · intro s
    have h : ('\n' : Char) ∉ cleanTickerFragment s := by
      intro hmem
      exact collapseWs_nl_not_mem _ (mem_of_mem_jsTrim hmem)
    simpa using h

/-- Claim C9: the idea parser is a total pure function (it is a Lean def,
so it cannot throw and has no side effects), malformed fragments simply
contribute no idea, and every emitted idea has non-empty theme and
non-empty analysis. -/
theorem parseCombinedIdeas_emitted_nonempty (row : IdeaRow) (idea : TradingIdea)
    (h : idea ∈ parseCombinedIdeas row) :
    idea.theme ≠ "" ∧ idea.analysis ≠ "" := by
  simp only [parseCombinedIdeas] at h
  rw [List.mem_filterMap] at h
  obtain ⟨p, _, hf⟩ := h
  exact parseIdeaFragment_fields_nonempty _ _ _ _ _ hf

/-- Witness for claim C9: the sample bulk row emits its first idea, whose
theme and analysis are indeed non-empty. -/
theorem parseCombinedIdeas_emitted_nonempty_witness :
    ({ id := 100, created_at := "2025-01-01T06:00:00Z", theme := "Tech Momentum"
       analysis := "Strong breakout.", tickers := "AAPL, NVDA" } : TradingIdea).theme ≠ "" ∧
    ({ id := 100, created_at := "2025-01-01T06:00:00Z", theme := "Tech Momentum"
       analysis := "Strong breakout.", tickers := "AAPL, NVDA" } : TradingIdea).analysis ≠ "" :=
  parseCombinedIdeas_emitted_nonempty sampleBulkRow _ (by decide)

/-- Claim C5: withRetry with 3 attempts and initial delay 100 applied to an
always-failing operation invokes it exactly 3 times, waits 100 ms then
200 ms between attempts (and nothing after the last one, 300 ms in total),
and fails with the error produced by the 3rd attempt. -/
theorem withRetry_always_failing_three (α : Type) (errs : Nat → String) (opName : String) :
    (withRetry (fun i => (Except.error (errs i) : Except String α)) 3 100 opName).calls = 3 ∧
    (withRetry (fun i => (Except.error (errs i) : Except String α)) 3 100 opName).waits = [100, 200] ∧
    (withRetry (fun i => (Except.error (errs i) : Except String α)) 3 100 opName).waits.sum = 300 ∧
    (withRetry (fun i => (Except.error (errs i) : Except String α)) 3 100 opName).result =
      Except.error (errs 3) :=
  ⟨rfl, rfl, rfl, rfl⟩

/-- Claim C6: when every attempt of a withRetry invocation fails, the final
failure carries the most recent attempt's error unchanged, and the console
diagnostics record the exhaustion tagged with the operation's display
name. -/
theorem withRetry_fails_with_last_error (α : Type) (errs : Nat → String)
    (maxRetries delayMs : Nat) (opName : String) (h : 1 ≤ maxRetries) :
    (withRetry (fun i => (Except.error (errs i) : Except String α))
        maxRetries delayMs opName).result = Except.error (errs maxRetries) ∧
    retryAllFailedLog opName maxRetries ∈
      (withRetry (fun i => (Except.error (errs i) : Except String α))
        maxRetries delayMs opName).logs := by
  have := withRetryGo_all_fail α errs maxRetries delayMs opName maxRetries 1 none h
  have harith : 1 + maxRetries - 1 = maxRetries := by omega
  rw [harith] at this
  exact this

/-- Witness for claim C6: a concrete two-attempt run whose attempts fail
with distinguishable errors fails with the second error and logs the
tagged exhaustion line. -/
theorem withRetry_fails_with_last_error_witness :
    (withRetry (fun i => (Except.error ("boom " ++ toString i) : Except String Nat))
        2 5 "Fetch trading ideas").result = Except.error ("boom " ++ toString 2) ∧
    retryAllFailedLog "Fetch trading ideas" 2 ∈
      (withRetry (fun i => (Except.error ("boom " ++ toString i) : Except String Nat))
        2 5 "Fetch trading ideas").logs :=
  withRetry_fails_with_last_error Nat (fun i => "boom " ++ toString i) 2 5
    "Fetch trading ideas" (by decide)

theorem bulkConcat_foldl_eq (rows : List IdeaRow) :
    ∀ acc : List TradingIdea,
      rows.foldl (fun acc r => if rowMatches r then acc ++ parseCombinedIdeas r else acc) acc =
        acc ++ (rows.filter rowMatches).flatMap parseCombinedIdeas := by
  induction rows with
  | nil => intro acc; simp
  | cons r rows ih =>
    intro acc
    by_cases hr : rowMatches r
    · simp only [List.foldl_cons, if_pos hr, List.filter_cons_of_pos hr, List.flatMap_cons]
      rw [ih]
      rw [List.append_assoc]
    · simp only [List.foldl_cons, if_neg hr, List.filter_cons_of_neg hr]
      exact ih acc

theorem bulkConcat_eq_flatMap (rows : List IdeaRow) :
    bulkConcat rows = (rows.filter rowMatches).flatMap parseCombinedIdeas := by
  unfold bulkConcat
  simpa using bulkConcat_foldl_eq rows []

/-- Claim C2: when a batch is classified as bulk-encoded, the pipeline
parses every row that individually passes the marker-and-delimiter test —
not just the first one — and the output is the concatenation of the ideas
parsed from each such row, put into descending created_at order (a
permutation of that concatenation). -/
theorem normalizeRows_bulk_processes_all (rows : List IdeaRow)
    (h : hasCombinedFormat rows = true) :
    normalizeRows rows =
      sortIdeasDesc ((rows.filter rowMatches).flatMap parseCombinedIdeas) ∧
    (normalizeRows rows).Perm ((rows.filter rowMatches).flatMap parseCombinedIdeas) := by
  have heq : normalizeRows rows =
      sortIdeasDesc ((rows.filter rowMatches).flatMap parseCombinedIdeas) := by
    unfold normalizeRows
    rw [if_pos h, bulkConcat_eq_flatMap]
  refine ⟨heq, ?_⟩
  rw [heq]
  exact List.perm_insertionSort IdeaDescRel _

/-- Witness for claim C2: a batch holding two bulk rows is classified as
bulk-encoded, and both rows' ideas appear in the output. -/
theorem normalizeRows_bulk_processes_all_witness :
    normalizeRows [emptyBulkRow, sampleBulkRow] =
      sortIdeasDesc
        (([emptyBulkRow, sampleBulkRow].filter rowMatches).flatMap parseCombinedIdeas) ∧
    (normalizeRows [emptyBulkRow, sampleBulkRow]).Perm
      (([emptyBulkRow, sampleBulkRow].filter rowMatches).flatMap parseCombinedIdeas) :=
  normalizeRows_bulk_processes_all [emptyBulkRow, sampleBulkRow] (by decide)

/-- Claim C8: when no row of the batch passes the marker-and-delimiter
test, the pipeline returns the rows cast to the output shape with every
field unchanged, reordered only by the descending created_at sort. -/
theorem normalizeRows_single_passthrough (rows : List IdeaRow)
    (h : hasCombinedFormat rows = false) :
    normalizeRows rows = sortIdeasDesc (rows.map castRow) ∧
    (normalizeRows rows).Perm (rows.map castRow) := by
  have heq : normalizeRows rows = sortIdeasDesc (rows.map castRow) := by
    unfold normalizeRows
    rw [if_neg (by simp [h])]
  refine ⟨heq, ?_⟩
  rw [heq]
  exact List.perm_insertionSort IdeaDescRel _

/-- Witness for claim C8: a two-row batch with no bulk marker passes
through unchanged up to the sort. -/
theorem normalizeRows_single_passthrough_witness :
    normalizeRows [plainRow1, plainRow2] = sortIdeasDesc ([plainRow1, plainRow2].map castRow) ∧
    (normalizeRows [plainRow1, plainRow2]).Perm ([plainRow1, plainRow2].map castRow) :=
  normalizeRows_single_passthrough [plainRow1, plainRow2] (by decide)

/-- Counterexample to claim C3: a fetch that returns one bulk-classified
row whose only fragment has an empty body produces an empty idea list, so
the endpoint returns an empty array rather than the (non-empty) fallback
list. -/
theorem ideasGET_empty_despite_rows :
    ideasGET (some [emptyBulkRow]) "" "" "" "" "" "" = [] ∧
    mockIdeas "" "" "" "" "" "" ≠ [] := by
  constructor
  · decide
  · decide

/-- Claim C3 (amended): the fixed, non-empty fallback list is returned
exactly on the fetch-level empty cases — the storage fetch failed after
retries or returned no rows; when rows were returned but every one fails
classification or parsing, the endpoint returns an empty array instead. -/
theorem ideasGET_fallback_on_empty_fetch (fetched : Option (List IdeaRow))
    (t1 t2 t3 t4 t5 t6 : String) (h : fetched = none ∨ fetched = some []) :
    ideasGET fetched t1 t2 t3 t4 t5 t6 = mockIdeas t1 t2 t3 t4 t5 t6 ∧
    mockIdeas t1 t2 t3 t4 t5 t6 ≠ [] := by
  rcases h with h | h
  · subst h
    exact ⟨rfl, by simp [mockIdeas]⟩
  · subst h
    exact ⟨rfl, by simp [mockIdeas]⟩

/-- Witness for the amended claim C3: a failed fetch yields the six mock
ideas, a non-empty list. -/
theorem ideasGET_fallback_on_empty_fetch_witness :
    ideasGET none "a" "b" "c" "d" "e" "f" = mockIdeas "a" "b" "c" "d" "e" "f" ∧
    mockIdeas "a" "b" "c" "d" "e" "f" ≠ [] :=
  ideasGET_fallback_on_empty_fetch none "a" "b" "c" "d" "e" "f" (Or.inl rfl)

/-- Claim C10: a checkRateLimit call that is rejected leaves the store
exactly as it was — neither the count nor the reset time of any entry
changes, so rejected requests consume no quota and do not move the
window. -/
theorem checkRateLimit_rejected_frame (store : RateLimitStore) (userId : String)
    (now : Nat) (h : (checkRateLimit store userId now).1.allowed = false) :
    (checkRateLimit store userId now).2 = store := by
  unfold checkRateLimit at h ⊢
  cases hget : rlGet store userId with
  | none => rw [hget] at h; simp at h
  | some e =>
    rw [hget] at h
    dsimp only at h ⊢
    by_cases h1 : now > e.resetTime
    · rw [if_pos h1] at h; simp at h
    · rw [if_neg h1] at h ⊢
      by_cases h2 : e.count ≥ rateLimitMaxRequests
      · rw [if_pos h2]
      · rw [if_neg h2] at h; simp at h

/-- Witness for claim C10: a user with a full window inside its reset time
is rejected and the store is returned untouched. -/
theorem checkRateLimit_rejected_frame_witness :
    (checkRateLimit [("u", ⟨10, 100⟩)] "u" 50).2 = [("u", ⟨10, 100⟩)] :=
  checkRateLimit_rejected_frame [("u", ⟨10, 100⟩)] "u" 50 (by decide)

theorem rlGet_rlSet_self (s : RateLimitStore) (u : String) (e : RateLimitEntry) :
    rlGet (rlSet s u e) u = some e := by
  induction s with
  | nil => simp [rlSet, rlGet]
  | cons kv rest ih =>
    obtain ⟨k, e0⟩ := kv
    by_cases hk : k = u
    · subst hk
      simp [rlSet, rlGet]
    · simp [rlSet, rlGet, hk, ih]

theorem runRateLimitCalls_spec (userId : String) (R : Nat) :
    ∀ (ts : List Nat) (c : Nat) (s : RateLimitStore),
      rlGet s userId = some ⟨c, R⟩ → 1 ≤ c → c ≤ rateLimitMaxRequests →
      (∀ t ∈ ts, t ≤ R) →
      (∀ i, i < ts.length →
        (runRateLimitCalls userId ts s).1[i]? =
          some (if c + i < rateLimitMaxRequests then ⟨true, none⟩ else ⟨false, some R⟩)) ∧
      rlGet (runRateLimitCalls userId ts s).2 userId =
        some ⟨min (c + ts.length) rateLimitMaxRequests, R⟩ := by
  intro ts
  induction ts with
  | nil =>
    intro c s hget h1 h10 _
    refine ⟨fun i hi => by simp at hi, ?_⟩
    simp only [runRateLimitCalls, List.length_nil]
    rw [Nat.add_zero, Nat.min_eq_left h10]
    exact hget
  | cons t ts ih =>
    intro c s hget h1 h10 hin
    have ht : t ≤ R := hin t (List.mem_cons_self t ts)
    have hintail : ∀ t ∈ ts, t ≤ R := fun x hx => hin x (List.mem_cons_of_mem t hx)
    by_cases hc : c < rateLimitMaxRequests
    · have hstep : checkRateLimit s userId t =
          (⟨true, none⟩, rlSet s userId ⟨c + 1, R⟩) := by
        unfold checkRateLimit
        rw [hget]
        dsimp only
        rw [if_neg (show ¬ t > R by omega), if_neg (Nat.not_le.mpr hc)]
      obtain ⟨hres, hstore⟩ := ih (c + 1) (rlSet s userId ⟨c + 1, R⟩)
        (rlGet_rlSet_self s userId ⟨c + 1, R⟩) (by omega) (by omega) hintail
      constructor
      · intro i hi
        simp only [runRateLimitCalls, hstep]
        match i with
        | 0 =>
          rw [List.getElem?_cons_zero, if_pos (by omega)]
        | j + 1 =>
          rw [List.getElem?_cons_succ]
          have hj : j < ts.length := by
            simpa using Nat.lt_of_succ_lt_succ hi
          rw [hres j hj]
          have harith : c + 1 + j = c + (j + 1) := by omega
          rw [harith]
      · simp only [runRateLimitCalls, hstep]
        rw [hstore]
        have harith : c + 1 + ts.length = c + (t :: ts).length := by
          simp
          omega
        rw [harith]
    · have hstep : checkRateLimit s userId t = (⟨false, some R⟩, s) := by
        unfold checkRateLimit
        rw [hget]
        dsimp only
        rw [if_neg (show ¬ t > R by omega), if_pos (Nat.not_lt.mp hc)]
      obtain ⟨hres, hstore⟩ := ih c s hget h1 h10 hintail
      constructor
      · intro i hi
        simp only [runRateLimitCalls, hstep]
        match i with
        | 0 =>
          rw [List.getElem?_cons_zero, if_neg (by omega)]
        | j + 1 =>
          rw [List.getElem?_cons_succ]
          have hj : j < ts.length := by
            simpa using Nat.lt_of_succ_lt_succ hi
          rw [hres j hj]
          rw [if_neg (by omega), if_neg (by omega)]
      · simp only [runRateLimitCalls, hstep]
        rw [hstore]
        have harith : min (c + ts.length) rateLimitMaxRequests =
            min (c + (t :: ts).length) rateLimitMaxRequests := by
          simp
          omega
        rw [harith]

/-- Claim C4: starting from a store with no entry for the user, the first
call at time t0 is allowed; among the following calls inside the window
(all at times at most t0 plus the window), call i of the follow-ups is
allowed exactly when fewer than 10 requests have been counted (so calls 2
through 10 overall are allowed and calls 11 onward are rejected with the
window's reset time); after any prefix of the calls the stored count is
min(1 + prefix length, 10), hence never above 10; and the first call
strictly after the reset time is allowed again with a fresh window whose
count is 1. -/
theorem checkRateLimit_window_behavior (userId : String) (t0 : Nat) (ts : List Nat)
    (hts : ∀ t ∈ ts, t ≤ t0 + rateLimitWindowMs) (t' : Nat)
    (ht' : t0 + rateLimitWindowMs < t') :
    ((checkRateLimit [] userId t0).1 = ⟨true, none⟩) ∧
    (∀ i, i < ts.length →
      (runRateLimitCalls userId ts (checkRateLimit [] userId t0).2).1[i]? =
        some (if 1 + i < rateLimitMaxRequests then ⟨true, none⟩
              else ⟨false, some (t0 + rateLimitWindowMs)⟩)) ∧
    (∀ k, rlGet (runRateLimitCalls userId (ts.take k) (checkRateLimit [] userId t0).2).2 userId =
        some ⟨min (1 + (ts.take k).length) rateLimitMaxRequests, t0 + rateLimitWindowMs⟩) ∧
    (∀ k, ((rlGet (runRateLimitCalls userId (ts.take k)
        (checkRateLimit [] userId t0).2).2 userId).map RateLimitEntry.count).getD 0 ≤
          rateLimitMaxRequests) ∧
    ((checkRateLimit
        (runRateLimitCalls userId ts (checkRateLimit [] userId t0).2).2 userId t').1 =
      ⟨true, none⟩) ∧
    (rlGet (checkRateLimit
        (runRateLimitCalls userId ts (checkRateLimit [] userId t0).2).2 userId t').2 userId =
      some ⟨1, t' + rateLimitWindowMs⟩) := by
  have hfirst : checkRateLimit [] userId t0 =
      (⟨true, none⟩, [(userId, ⟨1, t0 + rateLimitWindowMs⟩)]) := rfl
  have hget0 : rlGet [(userId, (⟨1, t0 + rateLimitWindowMs⟩ : RateLimitEntry))] userId =
      some ⟨1, t0 + rateLimitWindowMs⟩ := by
    simp [rlGet]
  have hmain := runRateLimitCalls_spec userId (t0 + rateLimitWindowMs) ts 1
    [(userId, ⟨1, t0 + rateLimitWindowMs⟩)] hget0 (by omega)
    (by simp [rateLimitMaxRequests]) hts
  have hpref : ∀ k : Nat,
      rlGet (runRateLimitCalls userId (ts.take k)
        [(userId, (⟨1, t0 + rateLimitWindowMs⟩ : RateLimitEntry))]).2 userId =
      some ⟨min (1 + (ts.take k).length) rateLimitMaxRequests, t0 + rateLimitWindowMs⟩ := by
    intro k
    have := (runRateLimitCalls_spec userId (t0 + rateLimitWindowMs) (ts.take k) 1
      [(userId, ⟨1, t0 + rateLimitWindowMs⟩)] hget0 (by omega)
      (by simp [rateLimitMaxRequests])
      (fun x hx => hts x (List.take_subset k ts hx))).2
    simpa [Nat.add_comm] using this
  have hfinal : rlGet (runRateLimitCalls userId ts
      [(userId, (⟨1, t0 + rateLimitWindowMs⟩ : RateLimitEntry))]).2 userId =
      some ⟨min (1 + ts.length) rateLimitMaxRequests, t0 + rateLimitWindowMs⟩ := by
    simpa [Nat.add_comm] using hmain.2
  have hreset : checkRateLimit (runRateLimitCalls userId ts
      [(userId, (⟨1, t0 + rateLimitWindowMs⟩ : RateLimitEntry))]).2 userId t' =
      (⟨true, none⟩, rlSet (runRateLimitCalls userId ts
        [(userId, (⟨1, t0 + rateLimitWindowMs⟩ : RateLimitEntry))]).2 userId
        ⟨1, t' + rateLimitWindowMs⟩) := by
    unfold checkRateLimit
    rw [hfinal]
    dsimp only
    rw [if_pos (show t' > t0 + rateLimitWindowMs from ht')]
  rw [hfirst]
  refine ⟨rfl, ?_, ?_, ?_, ?_, ?_⟩
  · intro i hi
    have := hmain.1 i hi
    simpa [Nat.add_comm] using this
  · exact hpref
  · intro k
    rw [hpref k]
    show min (1 + (ts.take k).length) rateLimitMaxRequests ≤ rateLimitMaxRequests
    omega
  · rw [hreset]
  · rw [hreset]
    exact rlGet_rlSet_self _ _ _

/-- Witness for claim C4: the user makes a first call at time 0 and twelve
more calls inside the window; call 10 of the follow-ups (the 11th overall)
is rejected with the window's reset time, the stored count stays at the
ceiling, and a call after the window reset is allowed with a fresh count
of 1. -/
theorem checkRateLimit_window_behavior_witness :
    ((checkRateLimit [] "u" 0).1 = ⟨true, none⟩) ∧
    ((runRateLimitCalls "u" (List.replicate 12 0) (checkRateLimit [] "u" 0).2).1[8]? =
      some ⟨true, none⟩) ∧
    ((runRateLimitCalls "u" (List.replicate 12 0) (checkRateLimit [] "u" 0).2).1[9]? =
      some ⟨false, some rateLimitWindowMs⟩) ∧
    (((rlGet (runRateLimitCalls "u" ((List.replicate 12 0).take 12)
        (checkRateLimit [] "u" 0).2).2 "u").map RateLimitEntry.count).getD 0 ≤
      rateLimitMaxRequests) ∧
    (rlGet (checkRateLimit
        (runRateLimitCalls "u" (List.replicate 12 0) (checkRateLimit [] "u" 0).2).2
        "u" 70000).2 "u" = some ⟨1, 70000 + rateLimitWindowMs⟩) := by
  have h := checkRateLimit_window_behavior "u" 0 (List.replicate 12 0)
    (by intro t htm; rw [List.eq_of_mem_replicate htm]; simp [rateLimitWindowMs]) 70000
    (by simp [rateLimitWindowMs])
  refine ⟨h.1, ?_, ?_, h.2.2.2.1 12, ?_⟩
  · have := h.2.1 8 (by simp)
    simpa [rateLimitMaxRequests] using this
  · have := h.2.1 9 (by simp)
    simpa [rateLimitMaxRequests, rateLimitWindowMs] using this
  · have := h.2.2.2.2.2
    simpa [rateLimitWindowMs] using this
